import Mathlib

set_option maxRecDepth 4000

/-!
Shallow embedding of the SafeRoute risk-aggregation scoring engine
(`services/safety-score/scoring.py`) and the incident store builder
(`services/safety-score/ingest.py`).

Modelling conventions:
* Coordinates are rationals (every IEEE float is a rational).
* The geometry library (shapely `buffer`/`contains`) is external to the
  repository; following the abstraction stated in spec section 9 (a spatial
  corridor capability), corridor membership is a parameter
  `contains : ℚ → ℚ → Bool` applied to the latitude/longitude of an incident.  The degree buffer construction
  itself has no algorithmic content beyond this predicate.
* Timestamps are modelled as already-parsed epoch seconds: `Option Int`,
  `none` standing for a string `datetime.fromisoformat` rejects.  The wall
  clock of the scoring call is an explicit `now : Int` (epoch seconds).
* Python floats are idealised as exact real arithmetic; `round(x, 3)` is
  round-half-to-even on `1000 * x`, as in CPython.
* The sqlite fetch `SELECT ... LIMIT 5000` is `List.take 5000` on the stored
  row list.
-/

namespace SafeRoute

/-- Human-friendly labels table, from `INCIDENT_LABELS` in scoring.py. -/
def INCIDENT_LABELS : List (String × String) :=
  [("Arson/Fire Call", "Arson/Fire"),
   ("Assault Call", "Assault"),
   ("Bomb Threat Call", "Bomb Threat"),
   ("Burglary Call", "Burglary"),
   ("Criminal Information Call", "Criminal Info"),
   ("Criminal Damage Call", "Criminal Damage"),
   ("Drugs Call", "Drugs/Alcohol"),
   ("Drunk Driver Call", "DUI / Drunk Driver"),
   ("Extra Patrol Request Call", "Extra Patrol"),
   ("Drunk Disturbing Call", "Public Intoxication"),
   ("Fight Call", "Fight / Altercation"),
   ("Robbery Call", "Robbery"),
   ("Runaway Juvenile Call", "Runaway Juvenile"),
   ("Sexual Abuse Call", "Sexual Abuse"),
   ("Shooting Call", "Shooting"),
   ("Shots Fired Call", "Shots Fired"),
   ("Stolen Vehicle Call", "Stolen Vehicle"),
   ("Suspicious Person/Vehicle Call", "Suspicious Person/Vehicle"),
   ("Theft/Burglary From Vehicle Call", "Vehicle Theft/Burglary"),
   ("Unknown Trouble Call", "Unknown Trouble")]

/-- Severity weight table, from `SEVERITY_WEIGHT` in scoring.py. -/
def SEVERITY_WEIGHT : List (String × ℚ) :=
  [("Assault Call", 0.8),
   ("Sexual Abuse Call", 0.9),
   ("Shooting Call", 0.9),
   ("Shots Fired Call", 0.7),
   ("Robbery Call", 0.7),
   ("Fight Call", 0.6),
   ("Arson/Fire Call", 0.5),
   ("Bomb Threat Call", 0.6),
   ("Burglary Call", 0.4),
   ("Criminal Damage Call", 0.3),
   ("Drugs Call", 0.3),
   ("Theft/Burglary From Vehicle Call", 0.3),
   ("Stolen Vehicle Call", 0.3),
   ("Drunk Driver Call", 0.4),
   ("Criminal Information Call", 0.1),
   ("Extra Patrol Request Call", 0.05),
   ("Drunk Disturbing Call", 0.2),
   ("Runaway Juvenile Call", 0.1),
   ("Suspicious Person/Vehicle Call", 0.2),
   ("Unknown Trouble Call", 0.15)]

/-- Embedding of `days_since`: the timestamp argument is the parse result of
`datetime.fromisoformat` (epoch seconds, `none` when unparseable, in which
case the function returns 365 from its `except` arm).  `timedelta.days`
floors towards negative infinity, hence `Int.fdiv`. -/
def days_since (now : Int) (date : Option Int) : Int :=
  match date with
  | none => 365
  | some t => Int.fdiv (now - t) 86400

/-- Python `str.strip()`: drop leading and trailing whitespace, implemented
structurally on the character list. -/
def pyStrip (s : String) : String :=
  String.mk
    (((s.data.dropWhile Char.isWhitespace).reverse.dropWhile
        Char.isWhitespace).reverse)

/-- Embedding of the severity lookup `SEVERITY_WEIGHT.get(itype.strip(), 0.15)`
performed inside `score_route`. -/
def getSeverity (itype : String) : ℚ :=
  (SEVERITY_WEIGHT.lookup (pyStrip itype)).getD 0.15

/-- Embedding of `time_decay_factor` from scoring.py. -/
def time_decay_factor (days_ago : Int) : ℚ :=
  if days_ago ≤ 7 then 1.0
  else if days_ago ≤ 30 then 0.8
  else if days_ago ≤ 90 then 0.6
  else if days_ago ≤ 180 then 0.4
  else if days_ago ≤ 365 then 0.2
  else 0.1

/-- Python dict read with default: `b.get(k, 0)`.  Breakdown dicts are
insertion-ordered association lists. -/
def bdGet (b : List (String × Nat)) (k : String) : Nat :=
  (b.lookup k).getD 0

/-- Total of all counts in a breakdown. -/
def bdTotal (b : List (String × Nat)) : Nat := (b.map (fun kv => kv.2)).sum

/-- Python dict write `b[k] = b.get(k, 0) + 1`: update in place when the key
exists, append otherwise (insertion order preserved). -/
def bdIncr : List (String × Nat) → String → List (String × Nat)
  | [], k => [(k, 1)]
  | (k', v) :: rest, k =>
      if k' = k then (k', v + 1) :: rest else (k', v) :: bdIncr rest k

/-- Python dict write `b[k] = v` used by the `friendly_breakdown`
comprehension: a later colliding key overwrites the earlier value. -/
def bdPut : List (String × Nat) → String → Nat → List (String × Nat)
  | [], k, v => [(k, v)]
  | (k', v') :: rest, k, v =>
      if k' = k then (k', v) :: rest else (k', v') :: bdPut rest k v

/-- Embedding of `friendly_breakdown`: the dict comprehension that maps each
raw key to INCIDENT_LABELS.get of the stripped key, falling back to the
stripped key itself; of two colliding keys the later one overwrites. -/
def friendly_breakdown (breakdown : List (String × Nat)) : List (String × Nat) :=
  breakdown.foldl
    (fun acc kv =>
      bdPut acc ((INCIDENT_LABELS.lookup (pyStrip kv.1)).getD (pyStrip kv.1)) kv.2)
    []

/-- A route point: a dict with keys lat and lon. -/
structure RoutePoint where
  lat : ℚ
  lon : ℚ
deriving DecidableEq

/-- One row of the `incidents` table as fetched by `score_route`
(`incident_type, latitude, longitude, datetime`); latitude/longitude may be
NULL (the loop skips those), the datetime is kept as its parse result. -/
structure IncidentRow where
  incident_type : String
  latitude : Option ℚ
  longitude : Option ℚ
  dt : Option Int
deriving DecidableEq

/-- Haversine length (km) of one segment, from `calculate_route_length`. -/
noncomputable def haversine_km (p q : RoutePoint) : ℝ :=
  let lat1 := (p.lat : ℝ) * Real.pi / 180
  let lon1 := (p.lon : ℝ) * Real.pi / 180
  let lat2 := (q.lat : ℝ) * Real.pi / 180
  let lon2 := (q.lon : ℝ) * Real.pi / 180
  let dlat := lat2 - lat1
  let dlon := lon2 - lon1
  let a := Real.sin (dlat / 2) ^ 2 +
    Real.cos lat1 * Real.cos lat2 * Real.sin (dlon / 2) ^ 2
  6371 * (2 * Real.arcsin (Real.sqrt a))

/-- Sum of haversine distances over consecutive point pairs. -/
noncomputable def pairwise_length_sum : List RoutePoint → ℝ
  | p :: q :: rest => haversine_km p q + pairwise_length_sum (q :: rest)
  | _ => 0

/-- Embedding of `calculate_route_length`. -/
noncomputable def calculate_route_length (points : List RoutePoint) : ℝ :=
  if points.length < 2 then 0.1
  else max (pairwise_length_sum points) 0.1

/-- Round half to even (CPython `round` on a float), as an integer. -/
noncomputable def roundHalfEven (x : ℝ) : ℤ :=
  if Int.fract x = 1 / 2 then (if Even ⌊x⌋ then ⌊x⌋ else ⌊x⌋ + 1)
  else round x

/-- Python `round(x, 3)`. -/
noncomputable def round3 (x : ℝ) : ℝ :=
  (roundHalfEven (1000 * x) : ℝ) / 1000

/-- Loop state of the scan over fetched rows in `score_route`: the three
severity-band accumulators and the raw breakdown dict. -/
structure Accum where
  high : ℚ
  moderate : ℚ
  low : ℚ
  breakdown : List (String × Nat)
deriving DecidableEq

/-- Corridor membership of one fetched row: rows with a NULL coordinate are
never inside (the loop `continue`s past them). -/
def inCorridorRow (contains : ℚ → ℚ → Bool) (r : IncidentRow) : Bool :=
  match r.latitude, r.longitude with
  | some lat, some lon => contains lat lon
  | _, _ => false

/-- One iteration of the row loop of `score_route` (lines 141-160). -/
def scanRow (contains : ℚ → ℚ → Bool) (now : Int) (st : Accum)
    (r : IncidentRow) : Accum :=
  match r.latitude, r.longitude with
  | some lat, some lon =>
      if contains lat lon then
        let severity := getSeverity r.incident_type
        let time_factor := time_decay_factor (days_since now r.dt)
        let st1 :=
          if 0.6 ≤ severity then { st with high := st.high + time_factor }
          else if 0.3 ≤ severity then
            { st with moderate := st.moderate + time_factor }
          else { st with low := st.low + time_factor }
        { st1 with breakdown := bdIncr st1.breakdown (pyStrip r.incident_type) }
      else st
  | _, _ => st

/-- The whole row loop, folded over the fetched rows. -/
def accumulate (contains : ℚ → ℚ → Bool) (now : Int)
    (rows : List IncidentRow) : Accum :=
  rows.foldl (scanRow contains now) ⟨0, 0, 0, []⟩

/-- Embedding of lines 177-180: `log(1 + risk) / log(1 + 10)` when the risk
is positive, else 0. -/
noncomputable def normalized_risk_of (risk_score : ℝ) : ℝ :=
  if 0 < risk_score then Real.log (1 + risk_score) / Real.log (1 + 10) else 0

/-- Lines 162-190 of `score_route`: normalisation by route length, band
weighting, logarithmic compression, score assembly, patrol bonus, ceiling
clamp and rounding. -/
noncomputable def assemble_score (route_length_km : ℝ) (st : Accum) : ℝ :=
  let high_per_km := (st.high : ℝ) / route_length_km
  let moderate_per_km := (st.moderate : ℝ) / route_length_km
  let low_per_km := (st.low : ℝ) / route_length_km
  let risk_score := high_per_km * 0.6 + moderate_per_km * 0.3 + low_per_km * 0.1
  let normalized_risk := normalized_risk_of risk_score
  let safety_score := 0.1 + 0.9 * (1 - normalized_risk)
  let patrol_bonus :=
    min 0.05 ((bdGet st.breakdown "Extra Patrol Request Call" : ℝ) * 0.01)
  round3 (min 1 (safety_score + patrol_bonus))

/-- Embedding of `score_route`.  The corridor construction (point or line
buffer of `buffer_m / 111000` degrees) is abstracted into the `contains`
predicate; the sqlite fetch is capped at 5000 rows as in the SQL. -/
noncomputable def score_route (contains : ℚ → ℚ → Bool) (now : Int)
    (points : List RoutePoint) (rows : List IncidentRow) :
    ℝ × List (String × Nat) :=
  let st := accumulate contains now (rows.take 5000)
  (assemble_score (calculate_route_length points) st,
   friendly_breakdown st.breakdown)

/-! Incident store builder (`ingest.py`). -/

/-- Category vocabulary `VALID_CATEGORIES` from ingest.py. -/
def VALID_CATEGORIES : List String :=
  ["Arson/Fire Call", "Assault Call", "Bomb Threat Call", "Burglary Call",
   "Criminal Information Call", "Criminal Damage Call", "Drugs Call",
   "Drunk Driver Call", "Extra Patrol Request Call", "Drunk Disturbing Call",
   "Fight Call", "Robbery Call", "Runaway Juvenile Call", "Sexual Abuse Call",
   "Shooting Call", "Shots Fired Call", "Stolen Vehicle Call",
   "Suspicious Person/Vehicle Call", "Theft/Burglary From Vehicle Call",
   "Unknown Trouble Call"]

/-- One row of the raw feed, fields already coerced: `OccurrenceYear` after
`pd.to_numeric(errors="coerce")` (`none` = NaN), the rest straight from the
CSV with `none` for missing cells. -/
structure FeedRow where
  occurrenceYear : Option Int
  finalCaseTypeTrans : Option String
  latitude : Option ℚ
  longitude : Option ℚ
  occurrenceDatetime : Option String
deriving DecidableEq

/-- One normalized record written to the `incidents` table. -/
structure IngestRecord where
  incident_type : String
  latitude : ℚ
  longitude : ℚ
  datetime : String
deriving DecidableEq

/-- Outcome signal of one ingest run: the "no rows" early return or a write
of `n` records. -/
inductive IngestOutcome where
  | noRows
  | wrote (n : Nat)
deriving DecidableEq

/-- The `dropna(subset=[...])` + column selection step: rows with every
required field present become records, the rest are dropped. -/
def to_record (r : FeedRow) : Option IngestRecord :=
  match r.finalCaseTypeTrans, r.latitude, r.longitude, r.occurrenceDatetime with
  | some t, some la, some lo, some dt => some ⟨t, la, lo, dt⟩
  | _, _, _, _ => none

/-- Embedding of `main` in ingest.py, as a function of the downloaded feed
and the previously stored table (`none` when no database file exists).  Year
filter, category filter, the empty check with early return, then dropna and
the replace-on-write (delete old database, write new table). -/
def ingest_main (feed : List FeedRow) (prior : Option (List IngestRecord)) :
    Option (List IngestRecord) × IngestOutcome :=
  let df1 := feed.filter (fun r => r.occurrenceYear == some 2025)
  let df2 := df1.filter (fun r =>
    match r.finalCaseTypeTrans with
    | some t => VALID_CATEGORIES.contains t
    | none => false)
  if df2.isEmpty then (prior, IngestOutcome.noRows)
  else
    let records := df2.filterMap to_record
    (some records, IngestOutcome.wrote records.length)

/-! Concrete fixtures used by witnesses and counterexamples. -/

/-- A corridor predicate that contains every point. -/
def ctrue : ℚ → ℚ → Bool := fun _ _ => true

/-- A corridor predicate containing exactly the points at latitude 0. -/
def cLatZero : ℚ → ℚ → Bool := fun lat _ => lat == 0

/-- A recent high-severity incident at the origin. -/
def assaultRow : IncidentRow := ⟨"Assault Call", some 0, some 0, some 0⟩

/-- An incident whose raw type is the human-readable label of
"Assault Call". -/
def rawAssaultRow : IncidentRow := ⟨"Assault", some 0, some 0, some 0⟩

/-- An incident at latitude 1, outside the `cLatZero` corridor. -/
def farRow : IncidentRow := ⟨"Assault Call", some 1, some 0, some 0⟩

/-- The origin route point. -/
def origin : RoutePoint := ⟨0, 0⟩

/-- Twenty recent assaults at the origin. -/
def assaultStore20 : List IncidentRow := List.replicate 20 assaultRow

/-- A store of 5001 rows whose last row is the only one inside the
`cLatZero` corridor. -/
def overflowStore : List IncidentRow := List.replicate 5000 farRow ++ [assaultRow]

/-- A store mixing a recognized type with a raw type equal to its label. -/
def collisionStore : List IncidentRow :=
  [assaultRow, assaultRow, rawAssaultRow, rawAssaultRow, rawAssaultRow]

/-- A feed row from the wrong year (filtered out by ingest). -/
def feedRow2024 : FeedRow :=
  ⟨some 2024, some "Assault Call", some 0, some 0, some "2024-05-05T00:00:00"⟩

/-- A previously stored incident table with one record. -/
def priorStore : List IngestRecord := [⟨"Assault Call", 0, 0, "2025-01-01T00:00:00"⟩]

/-! Basic evaluation facts. -/

lemma sev_assault : getSeverity "Assault Call" = 0.8 := by rfl

lemma sev_raw_assault : getSeverity "Assault" = 0.15 := by rfl

lemma sev_patrol : getSeverity "Extra Patrol Request Call" = 0.05 := by rfl

lemma lookup_patrol : SEVERITY_WEIGHT.lookup "Extra Patrol Request Call" = some 0.05 := by rfl

lemma strip_assault : pyStrip "Assault Call" = "Assault Call" := by decide

lemma strip_raw_assault : pyStrip "Assault" = "Assault" := by decide

/-- The time decay factor is always positive. -/
lemma time_decay_factor_pos (d : Int) : 0 < time_decay_factor d := by
  unfold time_decay_factor
  split_ifs <;> norm_num

/-- A type whose severity reaches the high band is not the patrol-request
type (whose weight is 0.05). -/
lemma high_sev_ne_patrol {itype : String} (h : (0.6 : ℚ) ≤ getSeverity itype) :
    pyStrip itype ≠ "Extra Patrol Request Call" := by
  intro heq
  rw [getSeverity, heq, lookup_patrol] at h
  norm_num at h

/-! Behavior of one loop iteration. -/

/-- Rows outside the corridor (or with a NULL coordinate) leave the state
unchanged. -/
lemma scanRow_skip {c : ℚ → ℚ → Bool} {now : Int} {st : Accum}
    {r : IncidentRow} (h : inCorridorRow c r = false) :
    scanRow c now st r = st := by
  rcases r with ⟨it, la, lo, dt⟩
  cases la with
  | none => cases lo <;> rfl
  | some la =>
    cases lo with
    | none => rfl
    | some lo =>
      have hc : c la lo = false := by simpa [inCorridorRow] using h
      simp [scanRow, hc]

/-- An in-corridor row of high severity adds its time factor to the high
band and bumps its (stripped) type in the breakdown. -/
lemma scanRow_high {c : ℚ → ℚ → Bool} {now : Int} {st : Accum}
    {r : IncidentRow} {la lo : ℚ} (hla : r.latitude = some la)
    (hlo : r.longitude = some lo) (hc : c la lo = true)
    (hsev : (0.6 : ℚ) ≤ getSeverity r.incident_type) :
    scanRow c now st r =
      { st with
          high := st.high + time_decay_factor (days_since now r.dt),
          breakdown := bdIncr st.breakdown (pyStrip r.incident_type) } := by
  rcases r with ⟨it, la', lo', dt⟩
  simp only at hla hlo
  subst hla hlo
  simp only [scanRow, hc, if_true, if_pos hsev]

/-! Breakdown dictionary lemmas. -/

/-- Incrementing one key leaves the count of every other key unchanged. -/
lemma bdGet_bdIncr_ne {b : List (String × Nat)} {k k' : String}
    (h : k ≠ k') : bdGet (bdIncr b k) k' = bdGet b k' := by
  have hkk : (k' == k) = false := beq_eq_false_iff_ne.mpr (Ne.symm h)
  induction b with
  | nil => simp [bdGet, bdIncr, List.lookup, hkk]
  | cons kv rest ih =>
    rcases kv with ⟨k₀, v₀⟩
    by_cases h₀ : k₀ = k
    · subst h₀
      simp [bdGet, bdIncr, List.lookup, hkk]
    · simp only [bdIncr, if_neg h₀]
      cases h₁ : (k' == k₀) with
      | true => simp [bdGet, List.lookup, h₁]
      | false =>
        simp only [bdGet, List.lookup, h₁] at ih ⊢
        exact ih

lemma bdTotal_bdIncr (b : List (String × Nat)) (k : String) :
    bdTotal (bdIncr b k) = bdTotal b + 1 := by
  induction b with
  | nil => simp [bdTotal, bdIncr]
  | cons kv rest ih =>
    rcases kv with ⟨k₀, v₀⟩
    by_cases h₀ : k₀ = k
    · simp [bdTotal, bdIncr, h₀]
      omega
    · simp [bdTotal, bdIncr, h₀] at ih ⊢
      omega

/-- Folding rows that are all outside the corridor leaves the state
unchanged. -/
lemma foldl_scanRow_skip {c : ℚ → ℚ → Bool} {now : Int} :
    ∀ rows : List IncidentRow, (∀ r ∈ rows, inCorridorRow c r = false) →
      ∀ st : Accum, rows.foldl (scanRow c now) st = st := by
  intro rows
  induction rows with
  | nil => intro _ _; rfl
  | cons r rest ih =>
    intro h st
    rw [List.foldl_cons, scanRow_skip (h r (List.mem_cons_self r rest))]
    exact ih (fun r' hr' => h r' (List.mem_cons_of_mem r hr')) st

/-! Round-half-to-even lemmas. -/

lemma roundHalfEven_intCast (n : ℤ) : roundHalfEven (n : ℝ) = n := by
  unfold roundHalfEven
  rw [Int.fract_intCast]
  norm_num [round_intCast]

lemma round_mono_real {x y : ℝ} (h : x ≤ y) : round x ≤ round y := by
  rw [round_eq, round_eq]
  exact Int.floor_mono (by linarith)

lemma roundHalfEven_mono {x y : ℝ} (h : x ≤ y) :
    roundHalfEven x ≤ roundHalfEven y := by
  unfold roundHalfEven
  have hxf : x = ⌊x⌋ + Int.fract x := (Int.floor_add_fract x).symm
  have hyf : y = ⌊y⌋ + Int.fract y := (Int.floor_add_fract y).symm
  by_cases hx : Int.fract x = 1 / 2 <;> by_cases hy : Int.fract y = 1 / 2 <;>
    simp only [hx, hy, if_true, if_false, if_pos, if_neg, ite_true, ite_false]
  · -- both ties
    have hfl : ⌊x⌋ ≤ ⌊y⌋ := Int.floor_mono h
    rcases lt_or_eq_of_le hfl with hlt | heq
    · split_ifs <;> omega
    · rw [heq]
  · -- x tie, y not: round x = ⌊x⌋ + 1 and the tie value is at most that
    have hxhalf : x = (⌊x⌋ : ℝ) + 1 / 2 := by rw [hx] at hxf; exact hxf
    have hrx : round x = ⌊x⌋ + 1 := by
      have hsum : x + 1 / 2 = ((⌊x⌋ + 1 : ℤ) : ℝ) := by push_cast; linarith
      rw [round_eq, hsum, Int.floor_intCast]
    have hr : round x ≤ round y := round_mono_real h
    split_ifs <;> omega
  · -- x not, y tie: round x ≤ ⌊y⌋
    have hyhalf : y = (⌊y⌋ : ℝ) + 1 / 2 := by rw [hy] at hyf; exact hyf
    have hxy : x < y := by
      rcases lt_or_eq_of_le h with hlt | heq
      · exact hlt
      · exfalso; apply hx; rw [heq]; exact hy
    have hry : round x ≤ ⌊y⌋ := by
      rw [round_eq]
      have hlt : x + 1 / 2 < ((⌊y⌋ + 1 : ℤ) : ℝ) := by push_cast; linarith
      have := Int.floor_lt.mpr hlt
      omega
    split_ifs <;> omega
  · exact round_mono_real h

lemma round3_mono {x y : ℝ} (h : x ≤ y) : round3 x ≤ round3 y := by
  unfold round3
  have := roundHalfEven_mono (by linarith : 1000 * x ≤ 1000 * y)
  have hc : ((roundHalfEven (1000 * x) : ℝ)) ≤ (roundHalfEven (1000 * y) : ℝ) := by
    exact_mod_cast this
  linarith

lemma round3_intMul (n : ℤ) (x : ℝ) (hx : 1000 * x = (n : ℝ)) :
    round3 x = (n : ℝ) / 1000 := by
  unfold round3
  rw [hx, roundHalfEven_intCast]

/-! Logarithmic compression lemmas. -/

lemma normalized_risk_of_zero : normalized_risk_of 0 = 0 := by
  simp [normalized_risk_of]

lemma normalized_risk_of_nonneg (r : ℝ) :
    0 ≤ normalized_risk_of r := by
  unfold normalized_risk_of
  split_ifs with hr
  · apply div_nonneg
    · exact Real.log_nonneg (by linarith)
    · exact le_of_lt (Real.log_pos (by norm_num))
  · exact le_refl 0

lemma normalized_risk_of_mono {a b : ℝ} (hab : a ≤ b) :
    normalized_risk_of a ≤ normalized_risk_of b := by
  unfold normalized_risk_of
  split_ifs with h1 h2
  · have hlog : Real.log (1 + a) ≤ Real.log (1 + b) :=
      Real.log_le_log (by linarith) (by linarith)
    have hden : 0 < Real.log (1 + 10) := Real.log_pos (by norm_num)
    exact div_le_div_of_nonneg_right hlog (le_of_lt hden)
  · linarith
  · apply div_nonneg
    · exact Real.log_nonneg (by linarith)
    · exact le_of_lt (Real.log_pos (by norm_num))
  · exact le_refl 0

/-- At raw risk 120 the compressed risk is exactly 2: `log 121 = 2 log 11`. -/
lemma normalized_risk_of_120 : normalized_risk_of 120 = 2 := by
  unfold normalized_risk_of
  rw [if_pos (by norm_num : (0:ℝ) < 120)]
  rw [show (1 : ℝ) + 120 = 11 ^ 2 by norm_num, show (1 : ℝ) + 10 = 11 by norm_num]
  rw [Real.log_pow]
  have hlog : Real.log 11 ≠ 0 := ne_of_gt (Real.log_pos (by norm_num))
  field_simp

/-! Route length lemmas. -/

lemma calculate_route_length_ge (points : List RoutePoint) :
    (0.1 : ℝ) ≤ calculate_route_length points := by
  unfold calculate_route_length
  split_ifs
  · exact le_refl _
  · exact le_max_right _ _

lemma calculate_route_length_pos (points : List RoutePoint) :
    0 < calculate_route_length points :=
  lt_of_lt_of_le (by norm_num) (calculate_route_length_ge points)

lemma calculate_route_length_single (p : RoutePoint) :
    calculate_route_length [p] = 0.1 := by
  unfold calculate_route_length
  norm_num

/-! Score assembly lemmas. -/

/-- With empty accumulators the assembled score is exactly 1. -/
lemma assemble_score_empty (len : ℝ) :
    assemble_score len ⟨0, 0, 0, []⟩ = 1 := by
  unfold assemble_score
  simp only [Rat.cast_zero, zero_div, bdGet]
  norm_num [normalized_risk_of_zero]
  rw [round3_intMul 1000 1 (by norm_num)]
  norm_num

/-- The assembled score never increases when the band accumulators grow
(componentwise) and the patrol count is unchanged. -/
lemma assemble_score_anti {len : ℝ} {st st' : Accum} (hlen : 0 < len)
    (hh : st.high ≤ st'.high) (hm : st.moderate ≤ st'.moderate)
    (hl : st.low ≤ st'.low)
    (hb : bdGet st'.breakdown "Extra Patrol Request Call" =
          bdGet st.breakdown "Extra Patrol Request Call") :
    assemble_score len st' ≤ assemble_score len st := by
  unfold assemble_score
  rw [hb]
  apply round3_mono
  apply min_le_min (le_refl 1)
  have hcast : ∀ a b : ℚ, a ≤ b → ((a : ℝ)) ≤ (b : ℝ) := fun a b hab => by
    exact_mod_cast hab
  have hdiv : ∀ a b : ℚ, a ≤ b → ((a : ℝ)) / len ≤ (b : ℝ) / len :=
    fun a b hab => div_le_div_of_nonneg_right (hcast a b hab) (le_of_lt hlen)
  have hrisk :
      (st.high : ℝ) / len * 0.6 + (st.moderate : ℝ) / len * 0.3 +
          (st.low : ℝ) / len * 0.1 ≤
        (st'.high : ℝ) / len * 0.6 + (st'.moderate : ℝ) / len * 0.3 +
          (st'.low : ℝ) / len * 0.1 := by
    have d1 := hdiv _ _ hh
    have d2 := hdiv _ _ hm
    have d3 := hdiv _ _ hl
    nlinarith
  have hnr := normalized_risk_of_mono hrisk
  linarith

/-! Concrete row evaluations. -/

lemma scanRow_assaultRow (st : Accum) :
    scanRow ctrue 0 st assaultRow =
      { st with high := st.high + 1,
                breakdown := bdIncr st.breakdown "Assault Call" } := by
  have h2 : days_since 0 (some 0) = 0 := by decide
  have h4 : pyStrip "Assault Call" = "Assault Call" := by decide
  simp only [scanRow, assaultRow, ctrue, if_true, sev_assault, h2, h4]
  rw [if_pos (by norm_num : (0.6 : ℚ) ≤ 0.8)]
  norm_num [time_decay_factor]

lemma scanRow_rawAssaultRow (st : Accum) :
    scanRow ctrue 0 st rawAssaultRow =
      { st with low := st.low + 1,
                breakdown := bdIncr st.breakdown "Assault" } := by
  have h2 : days_since 0 (some 0) = 0 := by decide
  simp only [scanRow, rawAssaultRow, ctrue, if_true, sev_raw_assault,
    strip_raw_assault, h2]
  rw [if_neg (by norm_num : ¬ (0.6 : ℚ) ≤ 0.15),
    if_neg (by norm_num : ¬ (0.3 : ℚ) ≤ 0.15)]
  norm_num [time_decay_factor]

lemma foldl_assault_aux (n : ℕ) :
    ∀ (q : ℚ) (k : ℕ),
      List.foldl (scanRow ctrue 0) ⟨q, 0, 0, [("Assault Call", k)]⟩
        (List.replicate n assaultRow) =
      ⟨q + n, 0, 0, [("Assault Call", k + n)]⟩ := by
  induction n with
  | zero => intro q k; simp
  | succ m ih =>
    intro q k
    rw [List.replicate_succ, List.foldl_cons, scanRow_assaultRow]
    have hbd : bdIncr [("Assault Call", k)] "Assault Call" =
        [("Assault Call", k + 1)] := by simp [bdIncr]
    simp only [hbd]
    rw [ih (q + 1) (k + 1)]
    simp only [Accum.mk.injEq, List.cons.injEq, Prod.mk.injEq, and_true,
      true_and]
    constructor
    · push_cast; ring
    · omega

/-- The accumulator state after scanning the twenty-assault store. -/
lemma accum_assault20 :
    accumulate ctrue 0 assaultStore20 = ⟨20, 0, 0, [("Assault Call", 20)]⟩ := by
  unfold accumulate assaultStore20
  rw [List.replicate_succ, List.foldl_cons, scanRow_assaultRow]
  have hbd : bdIncr ([] : List (String × Nat)) "Assault Call" =
      [("Assault Call", 1)] := by simp [bdIncr]
  simp only [hbd]
  have := foldl_assault_aux 19 (0 + 1) 1
  rw [show ((⟨0 + 1, 0, 0, [("Assault Call", 1)]⟩ : Accum)) =
      ⟨(0 : ℚ) + 1, 0, 0, [("Assault Call", 1)]⟩ from rfl] at this ⊢
  rw [this]
  norm_num

/-- The accumulator state after scanning the collision store. -/
lemma accum_collision :
    accumulate ctrue 0 collisionStore =
      ⟨2, 0, 3, [("Assault Call", 2), ("Assault", 3)]⟩ := by
  unfold accumulate collisionStore
  simp only [List.foldl_cons, List.foldl_nil, scanRow_assaultRow,
    scanRow_rawAssaultRow]
  norm_num [bdIncr]
  all_goals decide

/-! Counting lemmas: every in-corridor row is tallied. -/

/-- One scan step raises the breakdown total iff the row is in the corridor. -/
lemma scanRow_bdTotal (c : ℚ → ℚ → Bool) (now : Int) (st : Accum)
    (r : IncidentRow) :
    bdTotal (scanRow c now st r).breakdown =
      bdTotal st.breakdown + (if inCorridorRow c r then 1 else 0) := by
  rcases r with ⟨it, la, lo, dt⟩
  cases la with
  | none => cases lo <;> simp [scanRow, inCorridorRow]
  | some la =>
    cases lo with
    | none => simp [scanRow, inCorridorRow]
    | some lo =>
      by_cases hc : c la lo
      · simp only [scanRow, inCorridorRow, hc, if_true]
        split_ifs <;> simp [bdTotal_bdIncr]
      · simp [scanRow, inCorridorRow, hc]

/-- One scan step adds the time factor of the row to the band total iff it is
in the corridor. -/
lemma scanRow_bandSum (c : ℚ → ℚ → Bool) (now : Int) (st : Accum)
    (r : IncidentRow) :
    (scanRow c now st r).high + (scanRow c now st r).moderate +
        (scanRow c now st r).low =
      st.high + st.moderate + st.low +
        (if inCorridorRow c r then time_decay_factor (days_since now r.dt)
         else 0) := by
  rcases r with ⟨it, la, lo, dt⟩
  cases la with
  | none => cases lo <;> simp [scanRow, inCorridorRow]
  | some la =>
    cases lo with
    | none => simp [scanRow, inCorridorRow]
    | some lo =>
      by_cases hc : c la lo
      · simp only [scanRow, inCorridorRow, hc, if_true]
        split_ifs <;> ring
      · simp [scanRow, inCorridorRow, hc]

lemma foldl_bdTotal (c : ℚ → ℚ → Bool) (now : Int) :
    ∀ (rows : List IncidentRow) (st : Accum),
      bdTotal (rows.foldl (scanRow c now) st).breakdown =
        bdTotal st.breakdown + rows.countP (inCorridorRow c) := by
  intro rows
  induction rows with
  | nil => intro st; simp
  | cons r rest ih =>
    intro st
    rw [List.foldl_cons, ih, scanRow_bdTotal, List.countP_cons]
    by_cases h : inCorridorRow c r <;> simp [h] <;> omega

lemma foldl_bandSum (c : ℚ → ℚ → Bool) (now : Int) :
    ∀ (rows : List IncidentRow) (st : Accum),
      (rows.foldl (scanRow c now) st).high +
          (rows.foldl (scanRow c now) st).moderate +
          (rows.foldl (scanRow c now) st).low =
        st.high + st.moderate + st.low +
          ((rows.filter (inCorridorRow c)).map
            (fun r => time_decay_factor (days_since now r.dt))).sum := by
  intro rows
  induction rows with
  | nil => intro st; simp
  | cons r rest ih =>
    intro st
    rw [List.foldl_cons, ih, scanRow_bandSum, List.filter_cons]
    by_cases h : inCorridorRow c r <;> simp [h] <;> ring

/-! Score evaluation at the twenty-assault store. -/

/-- The assembled score for the twenty-assault accumulator on a 0.1 km route
is exactly -0.8, far below the promised floor 0.1. -/
lemma assemble_score_c1 :
    assemble_score 0.1 ⟨20, 0, 0, [("Assault Call", 20)]⟩ = -0.8 := by
  unfold assemble_score
  dsimp only
  have hbd : bdGet [("Assault Call", 20)] "Extra Patrol Request Call" = 0 := by
    decide
  rw [hbd]
  have hrisk : ((20 : ℚ) : ℝ) / 0.1 * 0.6 + ((0 : ℚ) : ℝ) / 0.1 * 0.3 +
      ((0 : ℚ) : ℝ) / 0.1 * 0.1 = 120 := by push_cast; norm_num
  rw [hrisk, normalized_risk_of_120]
  have h80 : round3 (-0.8 : ℝ) = -0.8 := by
    rw [round3_intMul (-800) (-0.8) (by norm_num)]
    norm_num
  rw [← h80]
  congr 1
  norm_num [min_def]

/-! Corridor membership of the fixtures. -/

lemma farRow_outside : inCorridorRow cLatZero farRow = false := by
  show ((1 : ℚ) == 0) = false
  exact beq_eq_false_iff_ne.mpr (by norm_num)

lemma assaultRow_inside : inCorridorRow cLatZero assaultRow = true := by
  show ((0 : ℚ) == 0) = true
  exact beq_iff_eq.mpr rfl

/-! The claims. -/

/-- C1: the spec, and the comments in the code, promise a safety score in
[0.1, 1.0] with a 0.1 floor, but the assembly step never clamps from below:
on a single-point route whose corridor holds twenty recent assault
incidents, `score_route` returns exactly -0.8 < 0.1. -/
theorem C1_floor_code_bug :
    (score_route ctrue 0 [origin] assaultStore20).1 = -0.8 ∧
    (-0.8 : ℝ) < 0.1 := by
  constructor
  · unfold score_route
    dsimp only
    have htake : assaultStore20.take 5000 = assaultStore20 :=
      List.take_of_length_le (by simp [assaultStore20])
    rw [htake, accum_assault20, calculate_route_length_single,
      assemble_score_c1]
  · norm_num

/-- C2 counterexample: the fetch is capped at 5000 rows, so with 5001 stored
rows the last one sits inside the corridor yet is omitted from the
accumulators and the breakdown: the result is the clean-route pair. -/
theorem C2_counterexample :
    assaultRow ∈ overflowStore ∧
    inCorridorRow cLatZero assaultRow = true ∧
    score_route cLatZero 0 [origin] overflowStore = (1, []) := by
  have hlen : (List.replicate 5000 farRow).length = 5000 :=
    List.length_replicate _ _
  refine ⟨?_, assaultRow_inside, ?_⟩
  · unfold overflowStore
    exact List.mem_append.mpr (Or.inr (by simp))
  have htake : overflowStore.take 5000 = List.replicate 5000 farRow := by
    unfold overflowStore
    rw [List.take_append_of_le_length (le_of_eq hlen.symm)]
    exact List.take_of_length_le (le_of_eq hlen)
  unfold score_route accumulate
  dsimp only
  rw [htake,
    foldl_scanRow_skip _
      (fun r hr => by rw [List.eq_of_mem_replicate hr]; exact farRow_outside) _,
    assemble_score_empty]
  rfl

/-- C2 amended: within the 5000-row fetch cap no in-corridor incident is
omitted: the breakdown total equals the number of in-corridor rows and the
three band accumulators sum to the total of their time factors. -/
theorem C2_amended_no_omission (c : ℚ → ℚ → Bool) (now : Int)
    (rows : List IncidentRow) (h : rows.length ≤ 5000) :
    bdTotal (accumulate c now (rows.take 5000)).breakdown =
      rows.countP (inCorridorRow c) ∧
    (accumulate c now (rows.take 5000)).high +
        (accumulate c now (rows.take 5000)).moderate +
        (accumulate c now (rows.take 5000)).low =
      ((rows.filter (inCorridorRow c)).map
        (fun r => time_decay_factor (days_since now r.dt))).sum := by
  rw [List.take_of_length_le h]
  unfold accumulate
  constructor
  · rw [foldl_bdTotal]
    simp [bdTotal]
  · rw [foldl_bandSum]
    simp

/-- C2 amended witness at a one-row store. -/
theorem C2_amended_witness :
    ([assaultRow].length ≤ 5000) ∧
    (bdTotal (accumulate ctrue 0 ([assaultRow].take 5000)).breakdown =
        [assaultRow].countP (inCorridorRow ctrue) ∧
      (accumulate ctrue 0 ([assaultRow].take 5000)).high +
          (accumulate ctrue 0 ([assaultRow].take 5000)).moderate +
          (accumulate ctrue 0 ([assaultRow].take 5000)).low =
        (([assaultRow].filter (inCorridorRow ctrue)).map
          (fun r => time_decay_factor (days_since 0 r.dt))).sum) :=
  ⟨by norm_num, C2_amended_no_omission ctrue 0 [assaultRow] (by norm_num)⟩

/-- C3: when every fetched row is outside the corridor (in particular when
the store is empty), the result is the clean-route score 1.0 with an empty
breakdown. -/
theorem C3_clean_route (c : ℚ → ℚ → Bool) (now : Int)
    (points : List RoutePoint) (rows : List IncidentRow)
    (h : ∀ r ∈ rows.take 5000, inCorridorRow c r = false) :
    score_route c now points rows = (1, []) := by
  unfold score_route accumulate
  dsimp only
  rw [foldl_scanRow_skip _ h _, assemble_score_empty]
  rfl

/-- C3 witness: the empty incident store. -/
theorem C3_clean_route_witness :
    score_route ctrue 0 [origin] [] = (1, []) :=
  C3_clean_route ctrue 0 [origin] [] (by intro r hr; simp at hr)

/-- C4: the time decay factor is the documented step function of incident
age and is monotone non-increasing in age. -/
theorem C4_time_decay_step_monotone :
    (∀ d : Int, d ≤ 7 → time_decay_factor d = 1.0) ∧
    (∀ d : Int, 7 < d → d ≤ 30 → time_decay_factor d = 0.8) ∧
    (∀ d : Int, 30 < d → d ≤ 90 → time_decay_factor d = 0.6) ∧
    (∀ d : Int, 90 < d → d ≤ 180 → time_decay_factor d = 0.4) ∧
    (∀ d : Int, 180 < d → d ≤ 365 → time_decay_factor d = 0.2) ∧
    (∀ d : Int, 365 < d → time_decay_factor d = 0.1) ∧
    (∀ a b : Int, a ≤ b → time_decay_factor b ≤ time_decay_factor a) := by
  refine ⟨?_, ?_, ?_, ?_, ?_, ?_, ?_⟩
  · intro d h
    unfold time_decay_factor
    rw [if_pos h]
  · intro d h1 h2
    unfold time_decay_factor
    rw [if_neg (by omega), if_pos h2]
  · intro d h1 h2
    unfold time_decay_factor
    rw [if_neg (by omega), if_neg (by omega), if_pos h2]
  · intro d h1 h2
    unfold time_decay_factor
    rw [if_neg (by omega), if_neg (by omega), if_neg (by omega), if_pos h2]
  · intro d h1 h2
    unfold time_decay_factor
    rw [if_neg (by omega), if_neg (by omega), if_neg (by omega),
      if_neg (by omega), if_pos h2]
  · intro d h1
    unfold time_decay_factor
    rw [if_neg (by omega), if_neg (by omega), if_neg (by omega),
      if_neg (by omega), if_neg (by omega)]
  · intro a b h
    unfold time_decay_factor
    split_ifs <;> norm_num <;> omega

/-- C4 witness: a 5-day-old incident weighs at least a 40-day-old one. -/
theorem C4_time_decay_witness :
    (5 : ℤ) ≤ 40 ∧ time_decay_factor 40 ≤ time_decay_factor 5 :=
  ⟨by norm_num, C4_time_decay_step_monotone.2.2.2.2.2.2 5 40 (by norm_num)⟩

/-- C5: appending one in-corridor, high-severity (weight at least 0.6),
recent (at most 7 days old) incident to the store never increases the
returned safety score. -/
theorem C5_high_incident_never_increases (c : ℚ → ℚ → Bool) (now : Int)
    (points : List RoutePoint) (rows : List IncidentRow) (inc : IncidentRow)
    (hin : inCorridorRow c inc = true)
    (hsev : (0.6 : ℚ) ≤ getSeverity inc.incident_type)
    (hrecent : days_since now inc.dt ≤ 7) :
    (score_route c now points (rows ++ [inc])).1 ≤
      (score_route c now points rows).1 := by
  by_cases hlen : rows.length + 1 ≤ 5000
  · have htake1 : (rows ++ [inc]).take 5000 = rows ++ [inc] :=
      List.take_of_length_le (by simp; omega)
    have htake2 : rows.take 5000 = rows := List.take_of_length_le (by omega)
    unfold score_route accumulate
    dsimp only
    rw [htake1, htake2, List.foldl_append, List.foldl_cons, List.foldl_nil]
    rcases inc with ⟨it, ola, olo, dt⟩
    rcases ola with _ | la
    · simp [inCorridorRow] at hin
    rcases olo with _ | lo
    · simp [inCorridorRow] at hin
    have hc : c la lo = true := by simpa [inCorridorRow] using hin
    rw [scanRow_high rfl rfl hc hsev]
    exact assemble_score_anti (calculate_route_length_pos points)
      (le_add_of_nonneg_right (le_of_lt (time_decay_factor_pos _)))
      (le_refl _) (le_refl _)
      (bdGet_bdIncr_ne (high_sev_ne_patrol hsev))
  · have h5 : 5000 ≤ rows.length := by omega
    have htake : (rows ++ [inc]).take 5000 = rows.take 5000 :=
      List.take_append_of_le_length h5
    unfold score_route
    dsimp only
    rw [htake]

/-- C5 witness: one recent assault versus the empty store. -/
theorem C5_monotone_witness :
    inCorridorRow ctrue assaultRow = true ∧
    (0.6 : ℚ) ≤ getSeverity assaultRow.incident_type ∧
    days_since 0 assaultRow.dt ≤ 7 ∧
    (score_route ctrue 0 [origin] ([] ++ [assaultRow])).1 ≤
      (score_route ctrue 0 [origin] []).1 :=
  ⟨by rfl,
   by show (0.6 : ℚ) ≤ getSeverity "Assault Call"; rw [sev_assault]; norm_num,
   by show days_since 0 (some 0) ≤ 7; decide,
   C5_high_incident_never_increases ctrue 0 [origin] [] assaultRow (by rfl)
     (by show (0.6 : ℚ) ≤ getSeverity "Assault Call"; rw [sev_assault]; norm_num)
     (by show days_since 0 (some 0) ≤ 7; decide)⟩

/-- C6: data-quality anomalies are absorbed: an unknown (stripped) type gets
default severity 0.15, an unparseable timestamp is treated as age 365 days,
and a row with both anomalies is still processed (low band, weight 0.2)
instead of aborting the scan. -/
theorem C6_anomalies_absorbed :
    (∀ itype : String, SEVERITY_WEIGHT.lookup (pyStrip itype) = none →
        getSeverity itype = 0.15) ∧
    (∀ now : Int, days_since now none = 365) ∧
    (∀ (c : ℚ → ℚ → Bool) (now : Int) (st : Accum) (it : String) (la lo : ℚ),
        c la lo = true → SEVERITY_WEIGHT.lookup (pyStrip it) = none →
        scanRow c now st ⟨it, some la, some lo, none⟩ =
          { st with low := st.low + 0.2,
                    breakdown := bdIncr st.breakdown (pyStrip it) }) := by
  refine ⟨?_, ?_, ?_⟩
  · intro itype h
    unfold getSeverity
    rw [h]
    rfl
  · intro _
    rfl
  · intro c now st it la lo hc hnone
    have hsev : getSeverity it = 0.15 := by
      unfold getSeverity
      rw [hnone]
      rfl
    simp only [scanRow, hc, if_true, hsev]
    rw [if_neg (by norm_num : ¬ (0.6 : ℚ) ≤ 0.15),
      if_neg (by norm_num : ¬ (0.3 : ℚ) ≤ 0.15)]
    norm_num [days_since, time_decay_factor]

/-- C6 witness: an unknown type with an unparseable timestamp. -/
theorem C6_anomalies_witness :
    SEVERITY_WEIGHT.lookup (pyStrip " Space Lasers ") = none ∧
    getSeverity " Space Lasers " = 0.15 ∧
    days_since 0 none = 365 ∧
    scanRow ctrue 0 ⟨0, 0, 0, []⟩ ⟨" Space Lasers ", some 0, some 0, none⟩ =
      ⟨0, 0, 0 + 0.2, bdIncr [] (pyStrip " Space Lasers ")⟩ :=
  ⟨by decide,
   C6_anomalies_absorbed.1 " Space Lasers " (by decide),
   C6_anomalies_absorbed.2.1 0,
   C6_anomalies_absorbed.2.2 ctrue 0 ⟨0, 0, 0, []⟩ " Space Lasers " 0 0 rfl
     (by decide)⟩

/-- C7: a single-point route gets exactly the minimum length 0.1 km, and
every route length is at least 0.1 km (hence positive: the per-km divisions
never divide by zero). -/
theorem C7_min_route_length (points : List RoutePoint) :
    (points.length = 1 → calculate_route_length points = 0.1) ∧
    (0.1 : ℝ) ≤ calculate_route_length points ∧
    0 < calculate_route_length points := by
  refine ⟨?_, calculate_route_length_ge points, calculate_route_length_pos points⟩
  intro h
  unfold calculate_route_length
  rw [if_pos (by omega)]

/-- C7 witness: the one-point route at the origin. -/
theorem C7_min_route_length_witness :
    ([origin] : List RoutePoint).length = 1 ∧
    calculate_route_length [origin] = 0.1 ∧
    0 < calculate_route_length [origin] :=
  ⟨rfl, (C7_min_route_length [origin]).1 rfl, (C7_min_route_length [origin]).2.2⟩

/-- C8: when the year+category filter leaves no rows, ingest reports the
"no rows" signal and returns before deleting or rewriting the stored table:
the prior store is returned unchanged. -/
theorem C8_empty_ingest_preserves_store (feed : List FeedRow)
    (prior : Option (List IngestRecord))
    (h : (feed.filter (fun r => r.occurrenceYear == some 2025)).filter
        (fun r =>
          match r.finalCaseTypeTrans with
          | some t => VALID_CATEGORIES.contains t
          | none => false) = []) :
    ingest_main feed prior = (prior, IngestOutcome.noRows) := by
  unfold ingest_main
  dsimp only
  rw [h]
  rfl

/-- C8 witness: a feed holding only a 2024 row, against a nonempty prior
store. -/
theorem C8_empty_ingest_witness :
    (([feedRow2024].filter (fun r => r.occurrenceYear == some 2025)).filter
        (fun r =>
          match r.finalCaseTypeTrans with
          | some t => VALID_CATEGORIES.contains t
          | none => false) = []) ∧
    ingest_main [feedRow2024] (some priorStore) =
      (some priorStore, IngestOutcome.noRows) :=
  ⟨by decide,
   C8_empty_ingest_preserves_store [feedRow2024] (some priorStore) (by decide)⟩

/-- C9: a recognized type ("Assault Call", label "Assault") and a raw
passthrough type ("Assault") both reach the label "Assault"; the
label-translation comprehension keeps only the later count 3, losing the
count 2 instead of producing 5. -/
theorem C9_breakdown_label_collision :
    (accumulate ctrue 0 collisionStore).breakdown =
      [("Assault Call", 2), ("Assault", 3)] ∧
    (score_route ctrue 0 [origin] collisionStore).2 = [("Assault", 3)] := by
  constructor
  · rw [accum_collision]
  · unfold score_route
    dsimp only
    have htake : collisionStore.take 5000 = collisionStore :=
      List.take_of_length_le (by simp [collisionStore])
    rw [htake, accum_collision]
    decide

/-- C10: a parseable timestamp in the future yields a negative age (no
clamping to zero) and hence the maximal decay factor 1.0. -/
theorem C10_future_full_weight (now t : Int) (h : now < t) :
    days_since now (some t) < 0 ∧
    time_decay_factor (days_since now (some t)) = 1.0 := by
  have hneg : days_since now (some t) < 0 := by
    show Int.fdiv (now - t) 86400 < 0
    rw [Int.fdiv_eq_ediv _ (by norm_num)]
    exact Int.ediv_neg' (by omega) (by norm_num)
  refine ⟨hneg, ?_⟩
  unfold time_decay_factor
  rw [if_pos (by omega : days_since now (some t) ≤ 7)]

/-- C10 witness: an incident dated one day after the scoring call. -/
theorem C10_future_witness :
    (0 : ℤ) < 86400 ∧ days_since 0 (some 86400) < 0 ∧
    time_decay_factor (days_since 0 (some 86400)) = 1.0 :=
  ⟨by norm_num, (C10_future_full_weight 0 86400 (by norm_num)).1,
   (C10_future_full_weight 0 86400 (by norm_num)).2⟩

end SafeRoute
